import Mathlib

/-!
Verification of the lock-free containers of `src/queue_ts.hpp` and
`src/stack_ts.hpp` (the hazard-pointer queue `Queue_TS` and stack `Stack_TS`).

The embedding is sequential: one thread executes an operation to completion
while the hazard table may already hold protections published by other,
stalled threads (a stalled thread is modelled by the explicit `stallReader`
step, a faithful prefix of `pop`).  Nodes are identified by allocation ids
standing for their addresses; the live chain and the garbage list are Lean
lists of those nodes in pointer order; `size_t` arithmetic is `Nat` modulo
`2 ^ 64`.  An operation whose retry loop can never exit single-threadedly
(all hazard slots taken, a claim flag already set, the tail payload already
claimed) returns `none`, standing for divergence.  Deletes (`delete node`)
are not modelled as heap updates but logged: each operation returns the list
of ids it freed, so that freedom from hazard-protected frees is a statement
about that log.
-/

namespace QueueTS

/-- One slot of `Queue_TS::hazard` (queue_ts.hpp lines 74-88): an
`std::atomic_flag taken` and an `std::atomic<node*> pointer`
(`none` = `nullptr`). -/
structure HSlot where
  taken : Bool
  pointer : Option Nat
deriving DecidableEq, Repr

/-- One `Queue_TS::node` (queue_ts.hpp lines 47-72): its address (`id`), the
`std::atomic_flag taken` one-shot claim flag and the `std::atomic<T*> data`
payload pointer (`none` = `nullptr`).  The `next` pointer is represented by
list adjacency in the owning chain. -/
structure QNode (α : Type) where
  id : Nat
  taken : Bool
  data : Option α
deriving DecidableEq, Repr

/-- The state of a `Queue_TS<T>` (queue_ts.hpp lines 37-44).  `chain` is the
node chain from `head` (first element) to `tail` (last element, the dummy
node whose `data` is null); `garbage` is the id chain hanging off the
`garbage` pointer, most recently pushed first; `garbageSize` is the
`std::atomic_size_t` counter; `nextId` is the allocator's next fresh
address. -/
structure St (α : Type) where
  chain : List (QNode α)
  garbage : List Nat
  garbageSize : Nat
  garbageMaxSize : Nat
  hazards : List HSlot
  nextId : Nat
deriving DecidableEq, Repr

/-- `size_t` increment, wrapping at `2 ^ 64`. -/
def inc64 (n : Nat) : Nat := (n + 1) % 2 ^ 64

/-- `size_t` decrement, wrapping at `2 ^ 64`. -/
def dec64 (n : Nat) : Nat := (n + (2 ^ 64 - 1)) % 2 ^ 64

/-- The constructor `Queue_TS(hazard_holder_size, garbage_max_size)`
(queue_ts.hpp lines 90-104): one fresh dummy node as both head and tail,
empty garbage, zeroed counter, a hazard array of `hsz` default slots. -/
def freshQueue (α : Type) (hsz gsz : Nat) : St α :=
  { chain := [⟨0, false, none⟩]
    garbage := []
    garbageSize := 0
    garbageMaxSize := gsz
    hazards := List.replicate hsz ⟨false, none⟩
    nextId := 1 }

/-- `Queue_TS::push` (queue_ts.hpp lines 119-136): allocate the boxed payload
and a fresh empty node, CAS the tail node's `data` from null to the payload,
then link the fresh node as its successor and publish it as the new tail.
Single-threadedly the CAS loop exits only if the tail's payload is still
null; otherwise it retries forever (`none`). -/
def queuePush (s : St α) (v : α) : Option (St α) :=
  match s.chain.getLast? with
  | none => none
  | some tl =>
    match tl.data with
    | some _ => none
    | none =>
      some { s with
        chain := s.chain.dropLast ++ [{ tl with data := some v }, ⟨s.nextId, false, none⟩]
        nextId := s.nextId + 1 }

/-- The slot scan of `Queue_TS::load_head_set_hazard` (queue_ts.hpp lines
143-151): starting at index 0 and cycling, `test_and_set` each slot's `taken`
flag until a free one is found; with the table fixed this finds the first
free index, and spins forever (`none`) when every slot is taken. -/
def findFreeSlot : List HSlot → Option Nat
  | [] => none
  | h :: t => if h.taken then (findFreeSlot t).map (· + 1) else some 0

/-- `Queue_TS::is_hazardous` (queue_ts.hpp lines 173-181): some hazard slot's
`pointer` equals the node's address. -/
def isHazardous (hz : List HSlot) (a : Nat) : Bool :=
  hz.any (fun h => h.pointer = some a)

/-- One iteration of the drain loop of `Queue_TS::collect_garbage`
(queue_ts.hpp lines 207-218) over the accumulator
(live garbage list, freed log, `garbage_size`): decrement the counter, then
either re-append the node via `push_to_garbage` (cons onto the live list and
re-increment, queue_ts.hpp lines 183-191) when it is hazardous, or free it. -/
def sweepStep (hz : List HSlot) (acc : List Nat × List Nat × Nat) (a : Nat) :
    List Nat × List Nat × Nat :=
  let sz := dec64 acc.2.2
  if isHazardous hz a then (a :: acc.1, acc.2.1, inc64 sz)
  else (acc.1, acc.2.1 ++ [a], sz)

/-- `Queue_TS::collect_garbage` (queue_ts.hpp lines 201-219): exchange the
garbage pointer with null and walk the captured chain in order, deleting each
unprotected node and re-appending each still-protected one.  Returns the new
live garbage list, the freed ids in deletion order, and the new counter. -/
def collectGarbage (hz : List HSlot) (g : List Nat) (sz : Nat) :
    List Nat × List Nat × Nat :=
  g.foldl (sweepStep hz) ([], [], sz)

/-- `Queue_TS::is_garbage_full` (queue_ts.hpp lines 193-199):
`¬ (garbage_size < garbage_max_size)`. -/
def isGarbageFull (s : St α) : Bool := decide (s.garbageMaxSize ≤ s.garbageSize)

/-- `Queue_TS::pop` (queue_ts.hpp lines 221-267).  Returns `none` when the
operation would spin forever single-threadedly (no free hazard slot, or the
head's claim flag already set so every retry re-fails); otherwise
`some (result, freed ids in deletion order, final state)`.
Steps, in source order: acquire the first free hazard slot and protect the
head through it (`load_head_set_hazard`); `test_and_set` the head's `taken`
flag; clear the hazard slot (`clear_hazard`, queue_ts.hpp lines 166-171);
if head = tail, clear the claim flag and return empty; otherwise advance
`head` to the successor, take the payload, null the node's `data` and `next`,
then delete the node — unless some hazard slot still protects it, in which
case append it to the garbage list; finally sweep when the garbage counter
has reached the threshold. -/
def queuePop (s : St α) : Option (Option α × List Nat × St α) :=
  match findFreeSlot s.hazards with
  | none => none
  | some i =>
    match s.chain with
    | [] => none
    | hd :: rest =>
      if hd.taken then none
      else
        let hz := s.hazards.set i ⟨false, none⟩
        match rest with
        | [] => some (none, [], { s with hazards := hz })
        | _ :: _ =>
          let res := hd.data
          if isHazardous hz hd.id then
            let g1 := hd.id :: s.garbage
            let sz1 := inc64 s.garbageSize
            if s.garbageMaxSize ≤ sz1 then
              let cg := collectGarbage hz g1 sz1
              some (res, cg.2.1,
                { s with chain := rest, garbage := cg.1, garbageSize := cg.2.2,
                         hazards := hz })
            else
              some (res, [],
                { s with chain := rest, garbage := g1, garbageSize := sz1,
                         hazards := hz })
          else
            if s.garbageMaxSize ≤ s.garbageSize then
              let cg := collectGarbage hz s.garbage s.garbageSize
              some (res, hd.id :: cg.2.1,
                { s with chain := rest, garbage := cg.1, garbageSize := cg.2.2,
                         hazards := hz })
            else
              some (res, [hd.id],
                { s with chain := rest, hazards := hz })

/-- A reader thread that has completed `load_head_set_hazard` (queue_ts.hpp
line 229: slot acquired, current head published and validated) and is paused
just before the `test_and_set` of the claim flag (line 230).  Its hazard slot
remains taken and protecting the head until it resumes. -/
def stallReader (s : St α) : Option (St α) :=
  match findFreeSlot s.hazards, s.chain with
  | some i, hd :: _ => some { s with hazards := s.hazards.set i ⟨true, some hd.id⟩ }
  | _, _ => none

/-- The hazard table of a default-constructed `Queue_TS` (16 free slots). -/
def freshHaz : List HSlot := List.replicate 16 ⟨false, none⟩

/-- The state of a default-constructed queue after some pushes and pops by a
single thread: `ns` lists the claimed, not yet popped nodes as
(address, payload) pairs from head to tail, `d` is the dummy node's address
and `nid` the allocator's next address.  A proof device describing the
single-threaded reachable states, not a source function. -/
def midQ (ns : List (Nat × α)) (d nid : Nat) : St α :=
  { chain := ns.map (fun p => ⟨p.1, false, some p.2⟩) ++ [⟨d, false, none⟩]
    garbage := []
    garbageSize := 0
    garbageMaxSize := 1024
    hazards := freshHaz
    nextId := nid }

/-- A hazard table is clean when every free slot's protected pointer is null
— true of every reachable table, since `load_head_set_hazard` takes a slot
before publishing into it and `clear_hazard` nulls the pointer before
releasing the flag. -/
def CleanQ (hz : List HSlot) : Prop :=
  ∀ h ∈ hz, h.taken = false → h.pointer = none

/-- Push every value of `xs`, left to right. -/
def queuePushAll (s : St α) (xs : List α) : Option (St α) :=
  match xs with
  | [] => some s
  | x :: xs =>
    match queuePush s x with
    | none => none
    | some s' => queuePushAll s' xs

/-- Pop `n` times, collecting the returned values. -/
def queuePopN (s : St α) (n : Nat) : Option (List (Option α) × St α) :=
  match n with
  | 0 => some ([], s)
  | n + 1 =>
    match queuePop s with
    | none => none
    | some (r, _, s') =>
      match queuePopN s' n with
      | none => none
      | some (rs, s'') => some (r :: rs, s'')

end QueueTS

namespace StackTS

/-- One slot of `Stack_TS::hazard_ptr` (stack_ts.hpp lines 128-133): an
`std::atomic<std::thread::id>` (`none` = the default-constructed id marking
a free slot) and an `std::atomic<node*> pointer`. -/
structure HSlotS where
  tid : Option Nat
  pointer : Option Nat
deriving DecidableEq, Repr

/-- One `Stack_TS::node` (stack_ts.hpp lines 98-126): its address (`id`) and
its `std::shared_ptr<T> data` handle.  The payload type is `Int`, Lean's
model of C++ `long`: the node constructor (line 102) initialises `data` with
`std::make_shared<long>(std::move(arg))`, so the stored object is always a
`long` and the class is usable only at `T = long`.  The `next` pointer is
represented by list adjacency. -/
structure SNode where
  id : Nat
  data : Option Int
deriving DecidableEq, Repr

/-- The node constructor `node(T arg)` (stack_ts.hpp line 102): null `next`
and `data` initialised from `std::make_shared<long>(std::move(arg))` — a
freshly allocated `long` holding the argument. -/
def nodeCtor (arg : Int) (addr : Nat) : SNode := ⟨addr, some arg⟩

/-- The state of a `Stack_TS<T>` (stack_ts.hpp lines 37-42): the live chain
hanging off `head` (most recently pushed first), the id chain hanging off
`garbage`, the hazard array, and the allocator's next fresh address. -/
structure StS where
  head : List SNode
  garbage : List Nat
  hazards : List HSlotS
  nextId : Nat
deriving DecidableEq, Repr

/-- The constructor `Stack_TS(_max_size)` (stack_ts.hpp lines 44-48): null
head and garbage, a hazard array of `maxSize` default slots. -/
def freshStack (maxSize : Nat) : StS :=
  { head := [], garbage := [], hazards := List.replicate maxSize ⟨none, none⟩,
    nextId := 0 }

/-- `Stack_TS::push` (stack_ts.hpp lines 135-143): allocate a node holding
the value, set its successor to the current head and CAS the head to it.
Single-threadedly the CAS succeeds on the first try, so push is total. -/
def stackPush (s : StS) (v : Int) : StS :=
  { s with head := nodeCtor v s.nextId :: s.head, nextId := s.nextId + 1 }

/-- The slot scan of `Stack_TS::get_hazard_pointer` (stack_ts.hpp lines
145-161): CAS each slot's `thread_id` from the default id to the calling
thread's, returning the first free slot, or `none` (a null `hazard_ptr*`)
when every slot is owned. -/
def findFreeSlotS : List HSlotS → Option Nat
  | [] => none
  | h :: t =>
    match h.tid with
    | some _ => (findFreeSlotS t).map (· + 1)
    | none => some 0

/-- `Stack_TS::hazard_existed` (stack_ts.hpp lines 178-186): some hazard
slot's `pointer` equals the node's address. -/
def isHazardousS (hz : List HSlotS) (a : Nat) : Bool :=
  hz.any (fun h => h.pointer = some a)

/-- One iteration of the drain loop of `Stack_TS::collect_garbage`
(stack_ts.hpp lines 202-212) over the (live garbage list, freed log)
accumulator: re-append the node via `claim_later` (cons onto the live
garbage, stack_ts.hpp lines 188-195) when it is still protected, else free
it. -/
def sweepStepS (hz : List HSlotS) (acc : List Nat × List Nat) (a : Nat) :
    List Nat × List Nat :=
  if isHazardousS hz a then (a :: acc.1, acc.2)
  else (acc.1, acc.2 ++ [a])

/-- `Stack_TS::collect_garbage` (stack_ts.hpp lines 197-213): exchange the
garbage pointer with null and walk the captured chain in order, deleting each
unprotected node and re-appending (`claim_later`) each protected one.
Returns the new live garbage list and the freed ids in deletion order. -/
def stackCollect (hz : List HSlotS) (g : List Nat) : List Nat × List Nat :=
  g.foldl (sweepStepS hz) ([], [])

/-- `Stack_TS::pop` (stack_ts.hpp lines 215-247).  Returns `none` when the
operation would spin forever single-threadedly (every hazard slot owned by
another thread, so `get_hazard_pointer` keeps returning null); otherwise
`some (result, freed ids in deletion order, final state)`.
Steps, in source order: acquire the calling thread's hazard slot; publish
the head in it (`set_hazard_pointer`) and CAS `head` to its successor
(single-threadedly first try succeeds, or the head is null and the loop
exits); clear the slot (`clear_hazard_pointer`, stack_ts.hpp lines 171-176);
if the head was null return an empty handle; otherwise swap the payload
handle out of the node, null its `next`, delete it — unless some hazard slot
still protects it, in which case `claim_later` appends it to the garbage
list — and finally run a full garbage sweep. -/
def stackPop (s : StS) : Option (Option Int × List Nat × StS) :=
  match findFreeSlotS s.hazards with
  | none => none
  | some i =>
    let hz := s.hazards.set i ⟨none, none⟩
    match s.head with
    | [] => some (none, [], { s with hazards := hz })
    | hd :: rest =>
      let res := hd.data
      if isHazardousS hz hd.id then
        let cg := stackCollect hz (hd.id :: s.garbage)
        some (res, cg.2, { s with head := rest, garbage := cg.1, hazards := hz })
      else
        let cg := stackCollect hz s.garbage
        some (res, hd.id :: cg.2, { s with head := rest, garbage := cg.1, hazards := hz })

/-- `Stack_TS::is_empty` (stack_ts.hpp lines 249-255): the head pointer is
null. -/
def isEmpty (s : StS) : Bool :=
  match s.head with
  | [] => true
  | _ :: _ => false

/-- The hazard table of a default-constructed `Stack_TS` (32 free slots). -/
def freshHazS : List HSlotS := List.replicate 32 ⟨none, none⟩

/-- The state of a default-constructed stack after some pushes and pops by a
single thread: `ns` lists the live nodes as (address, payload) pairs from
head down, `nid` is the allocator's next address.  A proof device describing
the single-threaded reachable states, not a source function. -/
def midS (ns : List (Nat × Int)) (nid : Nat) : StS :=
  { head := ns.map (fun p => ⟨p.1, some p.2⟩)
    garbage := []
    hazards := freshHazS
    nextId := nid }

/-- A hazard table is clean when every unowned slot's protected pointer is
null — true of every reachable table, since `get_hazard_pointer` claims a
slot before publishing into it and `clear_hazard_pointer` nulls the pointer
before releasing the thread id. -/
def CleanS (hz : List HSlotS) : Prop :=
  ∀ h ∈ hz, h.tid = none → h.pointer = none

/-- Push every value of `xs`, left to right. -/
def stackPushAll (s : StS) (xs : List Int) : StS :=
  xs.foldl stackPush s

/-- Pop `n` times, collecting the returned values. -/
def stackPopN (s : StS) (n : Nat) : Option (List (Option Int) × StS) :=
  match n with
  | 0 => some ([], s)
  | n + 1 =>
    match stackPop s with
    | none => none
    | some (r, _, s') =>
      match stackPopN s' n with
      | none => none
      | some (rs, s'') => some (r :: rs, s'')

end StackTS

namespace StackMove

/-- The pointer fields of a `Stack_TS` as the move operations see them
(stack_ts.hpp lines 37-42): the raw values of the atomics `head` and
`garbage`, the `hazard_ptr* hazard_arr`, and `hazard_max_size`.  Move
construction and move assignment only shuffle these pointer values, so they
are modelled at this level; `none` is `nullptr` and `some a` the address
`a`. -/
structure SPtr where
  head : Option Nat
  garbage : Option Nat
  hazardArr : Option Nat
  hazardMaxSize : Nat
deriving DecidableEq, Repr

/-- The move constructor `Stack_TS(Stack_TS&& other)` (stack_ts.hpp lines
50-62): copy `hazard_max_size`, steal `hazard_arr`, exchange the source's
`head` with null into `_head_tmp` and store it into the new `head`, then
exchange the source's `garbage` with null into `_garbage_tmp` — and store
`_head_tmp` (not `_garbage_tmp`, which is never used again) into the new
`garbage`.  Returns (the constructed stack, the source afterwards). -/
def moveCtor (other : SPtr) : SPtr × SPtr :=
  let hazardMaxSize := other.hazardMaxSize
  let hazardArr := other.hazardArr
  let headTmp := other.head
  let _garbageTmp := other.garbage
  (⟨headTmp, headTmp, hazardArr, hazardMaxSize⟩,
   { other with head := none, garbage := none, hazardArr := none })

/-- The move assignment `operator=(Stack_TS&& other)` (stack_ts.hpp lines
64-79): when `this->hazard_max_size > 0` it throws
`"Can not assign to an intialized stack"` before touching either object;
otherwise it performs the same pointer shuffle as the move constructor
(again storing `_head_tmp` into the destination's `garbage` and dropping
`_garbage_tmp`).  Returns the (destination, source) pair after assignment. -/
def moveAssign (self other : SPtr) : Except String (SPtr × SPtr) :=
  if self.hazardMaxSize > 0 then
    .error "Can not assign to an intialized stack"
  else
    let headTmp := other.head
    let _garbageTmp := other.garbage
    .ok ({ self with hazardMaxSize := other.hazardMaxSize,
                     hazardArr := other.hazardArr,
                     head := headTmp, garbage := headTmp },
         { other with head := none, garbage := none, hazardArr := none })

end StackMove

namespace QueueTS

/-- Writing back the value already stored at an index leaves a list
unchanged. -/
theorem set_getElem?_self {β : Type _} :
    ∀ (l : List β) (i : Nat) (a : β), l[i]? = some a → l.set i a = l
  | [], i, a, h => by simp at h
  | b :: t, 0, a, h => by
    simp at h
    simp [h]
  | b :: t, i + 1, a, h => by
    simp at h
    simp [set_getElem?_self t i a h]

/-- The slot scan returns the index of a free slot. -/
theorem findFreeSlot_spec :
    ∀ (hz : List HSlot) (i : Nat), findFreeSlot hz = some i →
      ∃ sl, hz[i]? = some sl ∧ sl.taken = false
  | [], i, h => by simp [findFreeSlot] at h
  | sl :: t, i, h => by
    rw [findFreeSlot] at h
    cases htk : sl.taken with
    | false =>
      rw [htk] at h
      simp only [Bool.false_eq_true, if_false, Option.some.injEq] at h
      exact ⟨sl, by simp [← h], htk⟩
    | true =>
      rw [htk] at h
      simp only [if_true, Option.map_eq_some'] at h
      obtain ⟨j, hj, hji⟩ := h
      obtain ⟨sl', hsl', htk'⟩ := findFreeSlot_spec t j hj
      exact ⟨sl', by simp [← hji, hsl'], htk'⟩

/-- On a clean table, clearing the free slot the scan found is a no-op. -/
theorem cleanQ_set_found {hz : List HSlot} {i : Nat}
    (hc : CleanQ hz) (hf : findFreeSlot hz = some i) :
    hz.set i ⟨false, none⟩ = hz := by
  obtain ⟨sl, hget, htk⟩ := findFreeSlot_spec hz i hf
  have hmem : sl ∈ hz := List.getElem?_mem hget
  have hp : sl.pointer = none := hc sl hmem htk
  have : sl = ⟨false, none⟩ := by cases sl; simp_all
  exact this ▸ set_getElem?_self hz i sl hget

/-- The sweep iteration on a hazard-protected node re-appends it and
restores the counter. -/
theorem sweepStep_pos (hz : List HSlot) (acc : List Nat × List Nat × Nat) (b : Nat)
    (hb : isHazardous hz b = true) :
    sweepStep hz acc b = (b :: acc.1, acc.2.1, inc64 (dec64 acc.2.2)) := by
  show (if isHazardous hz b then (b :: acc.1, acc.2.1, inc64 (dec64 acc.2.2))
        else (acc.1, acc.2.1 ++ [b], dec64 acc.2.2)) = _
  rw [if_pos hb]

/-- The sweep iteration on an unprotected node frees it and decrements the
counter. -/
theorem sweepStep_neg (hz : List HSlot) (acc : List Nat × List Nat × Nat) (b : Nat)
    (hb : isHazardous hz b = false) :
    sweepStep hz acc b = (acc.1, acc.2.1 ++ [b], dec64 acc.2.2) := by
  show (if isHazardous hz b then (b :: acc.1, acc.2.1, inc64 (dec64 acc.2.2))
        else (acc.1, acc.2.1 ++ [b], dec64 acc.2.2)) = _
  simp [hb]

/-- Every node the sweep re-appends to the live garbage list is
hazard-protected. -/
theorem sweep_garbage_haz (hz : List HSlot) :
    ∀ (g : List Nat) (acc : List Nat × List Nat × Nat),
      (∀ a ∈ acc.1, isHazardous hz a = true) →
      ∀ a ∈ (g.foldl (sweepStep hz) acc).1, isHazardous hz a = true
  | [], _, h => h
  | b :: t, acc, h => by
    rw [List.foldl_cons]
    refine sweep_garbage_haz hz t (sweepStep hz acc b) (fun a ha => ?_)
    cases hb : isHazardous hz b with
    | true =>
      rw [sweepStep_pos hz acc b hb] at ha
      rcases List.mem_cons.1 ha with rfl | ha2
      · exact hb
      · exact h a ha2
    | false =>
      rw [sweepStep_neg hz acc b hb] at ha
      exact h a ha

/-- Every node the sweep frees is unprotected by every hazard slot. -/
theorem sweep_freed_unhaz (hz : List HSlot) :
    ∀ (g acc1 acc2 : List Nat) (sz : Nat),
      (∀ a ∈ acc2, isHazardous hz a = false) →
      ∀ a ∈ (g.foldl (sweepStep hz) (acc1, acc2, sz)).2.1, isHazardous hz a = false
  | [], _, _, _, h => h
  | b :: t, acc1, acc2, sz, h => by
    rw [List.foldl_cons]
    cases hb : isHazardous hz b with
    | true =>
      rw [sweepStep_pos hz (acc1, acc2, sz) b hb]
      exact sweep_freed_unhaz hz t (b :: acc1) acc2 (inc64 (dec64 sz)) h
    | false =>
      rw [sweepStep_neg hz (acc1, acc2, sz) b hb]
      refine sweep_freed_unhaz hz t acc1 (acc2 ++ [b]) (dec64 sz) (fun a ha => ?_)
      rcases List.mem_append.1 ha with ha2 | ha2
      · exact h a ha2
      · rw [List.eq_of_mem_singleton ha2]
        exact hb

/-- `collect_garbage` re-appends only hazard-protected nodes. -/
theorem collectGarbage_garbage_haz (hz : List HSlot) (g : List Nat) (sz : Nat) :
    ∀ a ∈ (collectGarbage hz g sz).1, isHazardous hz a = true :=
  sweep_garbage_haz hz g ([], [], sz) (by intro a ha; simp at ha)

/-- `collect_garbage` frees only unprotected nodes. -/
theorem collectGarbage_freed_unhaz (hz : List HSlot) (g : List Nat) (sz : Nat) :
    ∀ a ∈ (collectGarbage hz g sz).2.1, isHazardous hz a = false :=
  sweep_freed_unhaz hz g [] [] sz (by intro a ha; simp at ha)

/-- No node is protected by a table of free, cleared slots. -/
theorem isHazardous_replicate (n a : Nat) :
    isHazardous (List.replicate n ⟨false, none⟩) a = false := by
  induction n with
  | zero => rfl
  | succ m ih => simp [isHazardous, List.replicate_succ] at ih ⊢

/-- No node is protected by the fresh hazard table. -/
theorem isHazardous_freshHaz (a : Nat) : isHazardous freshHaz a = false :=
  isHazardous_replicate 16 a

/-- A push claims the dummy node's payload and appends a fresh dummy. -/
theorem queuePush_midQ {α : Type} (ns : List (Nat × α)) (d nid : Nat) (v : α) :
    queuePush (midQ ns d nid) v = some (midQ (ns ++ [(d, v)]) nid (nid + 1)) := by
  rw [queuePush]
  rw [show (midQ ns d nid).chain.getLast? = some ⟨d, false, none⟩ from
    List.getLast?_concat _]
  simp [midQ, List.dropLast_concat]

/-- Pushing a value list appends its values, in order, to the claimed
chain. -/
theorem queuePushAll_midQ {α : Type} :
    ∀ (xs : List α) (ns : List (Nat × α)) (d nid : Nat),
      ∃ (ns' : List (Nat × α)) (d' nid' : Nat),
        queuePushAll (midQ ns d nid) xs = some (midQ ns' d' nid') ∧
          ns'.map Prod.snd = ns.map Prod.snd ++ xs
  | [], ns, d, nid => ⟨ns, d, nid, rfl, by simp⟩
  | x :: xs, ns, d, nid => by
    obtain ⟨ns', d', nid', h1, h2⟩ := queuePushAll_midQ xs (ns ++ [(d, x)]) nid (nid + 1)
    refine ⟨ns', d', nid', ?_, ?_⟩
    · rw [queuePushAll, queuePush_midQ]
      exact h1
    · rw [h2]; simp

/-- Popping an empty canonical queue returns the empty result and leaves the
state unchanged. -/
theorem queuePop_midQ_nil {α : Type} (d nid : Nat) :
    queuePop (midQ ([] : List (Nat × α)) d nid) = some (none, [], midQ [] d nid) :=
  rfl

/-- Popping a nonempty canonical queue returns the head payload, frees the
head node, and leaves the canonical tail. -/
theorem queuePop_midQ_cons {α : Type} (p : Nat × α) (ns : List (Nat × α)) (d nid : Nat) :
    queuePop (midQ (p :: ns) d nid) = some (some p.2, [p.1], midQ ns d nid) := by
  have hrest : ∃ c t, (midQ ns d nid).chain = c :: t := by
    cases ns <;> exact ⟨_, _, rfl⟩
  obtain ⟨c, t, hct⟩ := hrest
  have hchain : (midQ (p :: ns) d nid).chain = ⟨p.1, false, some p.2⟩ :: c :: t := by
    simpa [midQ] using hct
  rw [queuePop]
  rw [show findFreeSlot (midQ (p :: ns) d nid).hazards = some 0 from rfl]
  rw [hchain]
  simp only [Bool.false_eq_true, if_false]
  rw [show (midQ (p :: ns) d nid).hazards.set 0 ⟨false, none⟩ = freshHaz from rfl]
  rw [isHazardous_freshHaz]
  simp only [Bool.false_eq_true, if_false]
  rw [if_neg (show ¬((midQ (p :: ns) d nid).garbageMaxSize ≤
    (midQ (p :: ns) d nid).garbageSize) from by simp [midQ])]
  rw [← hct]
  simp [midQ]

/-- Draining a canonical queue returns the claimed payloads in chain order,
then the empty result. -/
theorem queuePopN_midQ {α : Type} :
    ∀ (ns : List (Nat × α)) (d nid : Nat),
      queuePopN (midQ ns d nid) (ns.length + 1) =
        some (ns.map (fun p => some p.2) ++ [none], midQ [] d nid)
  | [], d, nid => by rw [queuePopN, queuePop_midQ_nil]; rfl
  | p :: ns, d, nid => by
    rw [List.length_cons, queuePopN, queuePop_midQ_cons]
    show (match queuePopN (midQ ns d nid) (ns.length + 1) with
      | none => none
      | some (rs, s2) => some (some p.2 :: rs, s2)) = _
    rw [queuePopN_midQ ns d nid]
    simp

end QueueTS

namespace StackTS

/-- The slot scan returns the index of an unowned slot. -/
theorem findFreeSlotS_spec :
    ∀ (hz : List HSlotS) (i : Nat), findFreeSlotS hz = some i →
      ∃ sl, hz[i]? = some sl ∧ sl.tid = none
  | [], i, h => by simp [findFreeSlotS] at h
  | sl :: t, i, h => by
    rw [findFreeSlotS] at h
    cases htid : sl.tid with
    | none =>
      rw [htid] at h
      simp only [Option.some.injEq] at h
      exact ⟨sl, by simp [← h], htid⟩
    | some x =>
      rw [htid] at h
      simp only [Option.map_eq_some'] at h
      obtain ⟨j, hj, hji⟩ := h
      obtain ⟨sl', hsl', htid'⟩ := findFreeSlotS_spec t j hj
      exact ⟨sl', by simp [← hji, hsl'], htid'⟩

/-- On a clean table, clearing the slot the scan found is a no-op. -/
theorem cleanS_set_found {hz : List HSlotS} {i : Nat}
    (hc : CleanS hz) (hf : findFreeSlotS hz = some i) :
    hz.set i ⟨none, none⟩ = hz := by
  obtain ⟨sl, hget, htid⟩ := findFreeSlotS_spec hz i hf
  have hmem : sl ∈ hz := List.getElem?_mem hget
  have hp : sl.pointer = none := hc sl hmem htid
  have : sl = ⟨none, none⟩ := by cases sl; simp_all
  exact this ▸ QueueTS.set_getElem?_self hz i sl hget

/-- The stack sweep iteration on a hazard-protected node re-appends it. -/
theorem sweepStepS_pos (hz : List HSlotS) (acc : List Nat × List Nat) (b : Nat)
    (hb : isHazardousS hz b = true) :
    sweepStepS hz acc b = (b :: acc.1, acc.2) := by
  show (if isHazardousS hz b then (b :: acc.1, acc.2)
        else (acc.1, acc.2 ++ [b])) = _
  rw [if_pos hb]

/-- The stack sweep iteration on an unprotected node frees it. -/
theorem sweepStepS_neg (hz : List HSlotS) (acc : List Nat × List Nat) (b : Nat)
    (hb : isHazardousS hz b = false) :
    sweepStepS hz acc b = (acc.1, acc.2 ++ [b]) := by
  show (if isHazardousS hz b then (b :: acc.1, acc.2)
        else (acc.1, acc.2 ++ [b])) = _
  simp [hb]

/-- Every node the stack sweep re-appends is hazard-protected. -/
theorem sweepS_garbage_haz (hz : List HSlotS) :
    ∀ (g : List Nat) (acc : List Nat × List Nat),
      (∀ a ∈ acc.1, isHazardousS hz a = true) →
      ∀ a ∈ (g.foldl (sweepStepS hz) acc).1, isHazardousS hz a = true
  | [], _, h => h
  | b :: t, acc, h => by
    rw [List.foldl_cons]
    refine sweepS_garbage_haz hz t (sweepStepS hz acc b) (fun a ha => ?_)
    cases hb : isHazardousS hz b with
    | true =>
      rw [sweepStepS_pos hz acc b hb] at ha
      rcases List.mem_cons.1 ha with rfl | ha2
      · exact hb
      · exact h a ha2
    | false =>
      rw [sweepStepS_neg hz acc b hb] at ha
      exact h a ha

/-- Every node the stack sweep frees is unprotected by every hazard slot. -/
theorem sweepS_freed_unhaz (hz : List HSlotS) :
    ∀ (g acc1 acc2 : List Nat),
      (∀ a ∈ acc2, isHazardousS hz a = false) →
      ∀ a ∈ (g.foldl (sweepStepS hz) (acc1, acc2)).2, isHazardousS hz a = false
  | [], _, _, h => h
  | b :: t, acc1, acc2, h => by
    rw [List.foldl_cons]
    cases hb : isHazardousS hz b with
    | true =>
      rw [sweepStepS_pos hz (acc1, acc2) b hb]
      exact sweepS_freed_unhaz hz t (b :: acc1) acc2 h
    | false =>
      rw [sweepStepS_neg hz (acc1, acc2) b hb]
      refine sweepS_freed_unhaz hz t acc1 (acc2 ++ [b]) (fun a ha => ?_)
      rcases List.mem_append.1 ha with ha2 | ha2
      · exact h a ha2
      · rw [List.eq_of_mem_singleton ha2]
        exact hb

/-- `collect_garbage` re-appends only hazard-protected nodes. -/
theorem stackCollect_garbage_haz (hz : List HSlotS) (g : List Nat) :
    ∀ a ∈ (stackCollect hz g).1, isHazardousS hz a = true :=
  sweepS_garbage_haz hz g ([], []) (by intro a ha; simp at ha)

/-- `collect_garbage` frees only unprotected nodes. -/
theorem stackCollect_freed_unhaz (hz : List HSlotS) (g : List Nat) :
    ∀ a ∈ (stackCollect hz g).2, isHazardousS hz a = false :=
  sweepS_freed_unhaz hz g [] [] (by intro a ha; simp at ha)

/-- No node is protected by a table of unowned, cleared slots. -/
theorem isHazardousS_replicate (n a : Nat) :
    isHazardousS (List.replicate n ⟨none, none⟩) a = false := by
  induction n with
  | zero => rfl
  | succ m ih => simp [isHazardousS, List.replicate_succ] at ih ⊢

/-- No node is protected by the fresh hazard table. -/
theorem isHazardousS_freshHazS (a : Nat) : isHazardousS freshHazS a = false :=
  isHazardousS_replicate 32 a

/-- A push conses a fresh node holding the value onto the live chain. -/
theorem stackPush_midS (ns : List (Nat × Int)) (nid : Nat) (v : Int) :
    stackPush (midS ns nid) v = midS ((nid, v) :: ns) (nid + 1) :=
  rfl

/-- Pushing a value list prepends its values, in reverse, to the live
chain. -/
theorem stackPushAll_midS :
    ∀ (xs : List Int) (ns : List (Nat × Int)) (nid : Nat),
      ∃ (ns' : List (Nat × Int)) (nid' : Nat),
        stackPushAll (midS ns nid) xs = midS ns' nid' ∧
          ns'.map Prod.snd = xs.reverse ++ ns.map Prod.snd
  | [], ns, nid => ⟨ns, nid, rfl, by simp⟩
  | x :: xs, ns, nid => by
    obtain ⟨ns', nid', h1, h2⟩ := stackPushAll_midS xs ((nid, x) :: ns) (nid + 1)
    refine ⟨ns', nid', ?_, ?_⟩
    · rw [stackPushAll, List.foldl_cons, show stackPush (midS ns nid) x =
        midS ((nid, x) :: ns) (nid + 1) from rfl]
      exact h1
    · rw [h2]; simp

/-- Popping an empty canonical stack returns the empty result and leaves the
state unchanged. -/
theorem stackPop_midS_nil (nid : Nat) :
    stackPop (midS [] nid) = some (none, [], midS [] nid) :=
  rfl

/-- Popping a nonempty canonical stack returns the head payload, frees the
head node, and leaves the canonical tail. -/
theorem stackPop_midS_cons (p : Nat × Int) (ns : List (Nat × Int)) (nid : Nat) :
    stackPop (midS (p :: ns) nid) = some (some p.2, [p.1], midS ns nid) := by
  have hhead : (midS (p :: ns) nid).head =
      ⟨p.1, some p.2⟩ :: ns.map (fun q => ⟨q.1, some q.2⟩) := rfl
  rw [stackPop]
  rw [show findFreeSlotS (midS (p :: ns) nid).hazards = some 0 from rfl]
  rw [hhead]
  simp only [show (midS (p :: ns) nid).hazards.set 0 ⟨none, none⟩ = freshHazS from rfl,
    isHazardousS_freshHazS, Bool.false_eq_true, if_false]
  rw [show stackCollect freshHazS (midS (p :: ns) nid).garbage = ([], []) from rfl]
  simp [midS]

/-- Draining a canonical stack returns the live payloads in chain order, then
the empty result. -/
theorem stackPopN_midS :
    ∀ (ns : List (Nat × Int)) (nid : Nat),
      stackPopN (midS ns nid) (ns.length + 1) =
        some (ns.map (fun p => some p.2) ++ [none], midS [] nid)
  | [], nid => by rw [stackPopN, stackPop_midS_nil]; rfl
  | p :: ns, nid => by
    rw [List.length_cons, stackPopN, stackPop_midS_cons]
    show (match stackPopN (midS ns nid) (ns.length + 1) with
      | none => none
      | some (rs, s2) => some (some p.2 :: rs, s2)) = _
    rw [stackPopN_midS ns nid]
    simp

end StackTS

namespace QueueTS

/-- Whatever branch a completing queue pop takes, every node it frees is
unprotected by every slot of the hazard table it checked — the table of the
state it returns, which no later step of the pop modifies. -/
theorem queuePop_freed_unhaz {α : Type} (s : St α) (r : Option α × List Nat × St α)
    (h : queuePop s = some r) :
    ∀ a ∈ r.2.1, isHazardous r.2.2.hazards a = false := by
  rw [queuePop] at h
  cases hf : findFreeSlot s.hazards with
  | none =>
    simp only [hf] at h
    exact Option.noConfusion h
  | some i =>
    simp only [hf] at h
    cases hc : s.chain with
    | nil =>
      simp only [hc] at h
      exact Option.noConfusion h
    | cons hd rest =>
      simp only [hc] at h
      cases htk : hd.taken with
      | true =>
        simp only [htk, eq_self_iff_true, if_true] at h
        exact Option.noConfusion h
      | false =>
        simp only [htk, Bool.false_eq_true, if_false] at h
        cases rest with
        | nil =>
          injection h with h2
          subst h2
          intro a ha
          exact absurd ha (List.not_mem_nil a)
        | cons c t =>
          simp only [] at h
          cases hhz : isHazardous (s.hazards.set i ⟨false, none⟩) hd.id with
          | true =>
            simp only [hhz, eq_self_iff_true, if_true] at h
            by_cases hfull : s.garbageMaxSize ≤ inc64 s.garbageSize
            · rw [if_pos hfull] at h
              injection h with h2
              subst h2
              exact fun a ha => collectGarbage_freed_unhaz _ _ _ a ha
            · rw [if_neg hfull] at h
              injection h with h2
              subst h2
              intro a ha
              exact absurd ha (List.not_mem_nil a)
          | false =>
            simp only [hhz, Bool.false_eq_true, if_false] at h
            by_cases hfull : s.garbageMaxSize ≤ s.garbageSize
            · rw [if_pos hfull] at h
              injection h with h2
              subst h2
              intro a ha
              rcases List.mem_cons.1 ha with rfl | ha2
              · exact hhz
              · exact collectGarbage_freed_unhaz _ _ _ a ha2
            · rw [if_neg hfull] at h
              injection h with h2
              subst h2
              intro a ha
              rcases List.mem_singleton.1 ha with rfl
              exact hhz

end QueueTS

namespace StackTS

/-- Whatever branch a completing stack pop takes, every node it frees is
unprotected by every slot of the hazard table it checked — the table of the
state it returns, which no later step of the pop modifies. -/
theorem stackPop_freed_unhaz (s : StS) (r : Option Int × List Nat × StS)
    (h : stackPop s = some r) :
    ∀ a ∈ r.2.1, isHazardousS r.2.2.hazards a = false := by
  rw [stackPop] at h
  cases hf : findFreeSlotS s.hazards with
  | none =>
    simp only [hf] at h
    exact Option.noConfusion h
  | some i =>
    simp only [hf] at h
    cases hc : s.head with
    | nil =>
      simp only [hc] at h
      injection h with h2
      subst h2
      intro a ha
      exact absurd ha (List.not_mem_nil a)
    | cons hd rest =>
      simp only [hc] at h
      cases hhz : isHazardousS (s.hazards.set i ⟨none, none⟩) hd.id with
      | true =>
        simp only [hhz, eq_self_iff_true, if_true] at h
        injection h with h2
        subst h2
        exact fun a ha => stackCollect_freed_unhaz _ _ a ha
      | false =>
        simp only [hhz, Bool.false_eq_true, if_false] at h
        injection h with h2
        subst h2
        intro a ha
        rcases List.mem_cons.1 ha with rfl | ha2
        · exact hhz
        · exact stackCollect_freed_unhaz _ _ a ha2

end StackTS

/-- Claim C2: a node is never freed while any hazard slot's protected pointer
equals its address.  In every delete path of both containers — the queue's
pop and collect_garbage, the stack's pop and collect_garbage — the hazard
table is checked immediately before the delete, and a node found protected is
appended to the garbage list instead of being freed: every id in the freed
log is unprotected by every slot of the hazard table in force at the delete
(for pop, the table of the returned state, unchanged after the thread cleared
its own slot). -/
theorem no_free_while_hazard_protected :
    (∀ (α : Type) (s : QueueTS.St α) (r : Option α × List Nat × QueueTS.St α),
      QueueTS.queuePop s = some r →
        ∀ a ∈ r.2.1, QueueTS.isHazardous r.2.2.hazards a = false) ∧
    (∀ (hz : List QueueTS.HSlot) (g : List Nat) (sz : Nat),
      ∀ a ∈ (QueueTS.collectGarbage hz g sz).2.1, QueueTS.isHazardous hz a = false) ∧
    (∀ (s : StackTS.StS) (r : Option Int × List Nat × StackTS.StS),
      StackTS.stackPop s = some r →
        ∀ a ∈ r.2.1, StackTS.isHazardousS r.2.2.hazards a = false) ∧
    (∀ (hz : List StackTS.HSlotS) (g : List Nat),
      ∀ a ∈ (StackTS.stackCollect hz g).2, StackTS.isHazardousS hz a = false) :=
  ⟨fun _ s r h => QueueTS.queuePop_freed_unhaz s r h,
   fun hz g sz => QueueTS.collectGarbage_freed_unhaz hz g sz,
   fun s r h => StackTS.stackPop_freed_unhaz s r h,
   fun hz g => StackTS.stackCollect_freed_unhaz hz g⟩

/-- Witness for C2: concrete frees by a queue pop, a queue sweep, a stack pop
and a stack sweep, each checked unprotected by the theorem. -/
theorem no_free_while_hazard_protected_witness :
    QueueTS.isHazardous (QueueTS.midQ ([] : List (Nat × Nat)) 1 2).hazards 0 = false ∧
    QueueTS.isHazardous [⟨true, some 9⟩] 3 = false ∧
    StackTS.isHazardousS (StackTS.midS [] 2).hazards 0 = false ∧
    StackTS.isHazardousS [⟨some 1, some 9⟩] 3 = false :=
  ⟨no_free_while_hazard_protected.1 Nat (QueueTS.midQ [(0, 5)] 1 2)
      (some 5, [0], QueueTS.midQ [] 1 2) (by decide) 0 (by decide),
   no_free_while_hazard_protected.2.1 [⟨true, some 9⟩] [3] 1 3 (by decide),
   no_free_while_hazard_protected.2.2.1 (StackTS.midS [(0, 5)] 2)
      (some 5, [0], StackTS.midS [] 2) (by decide) 0 (by decide),
   no_free_while_hazard_protected.2.2.2 [⟨some 1, some 9⟩] [3] 3 (by decide)⟩

/-- Claim C3: the queue is FIFO for a single thread.  Pushing any value list
onto a fresh default-constructed queue and then popping length-plus-one times
returns exactly those values in push order followed by the empty result — in
particular pushing 1, 2, 3 yields pops 1, then 2, then 3, then empty. -/
theorem queue_fifo_order (α : Type) (xs : List α) :
    ∃ s t, QueueTS.queuePushAll (QueueTS.freshQueue α 16 1024) xs = some s ∧
      QueueTS.queuePopN s (xs.length + 1) = some (xs.map some ++ [none], t) := by
  obtain ⟨ns', d', nid', h1, h2⟩ := QueueTS.queuePushAll_midQ xs [] 0 1
  have h1' : QueueTS.queuePushAll (QueueTS.freshQueue α 16 1024) xs =
      some (QueueTS.midQ ns' d' nid') := by
    rw [show QueueTS.freshQueue α 16 1024 = QueueTS.midQ [] 0 1 from rfl]
    exact h1
  have hlen : ns'.length = xs.length := by
    have := congrArg List.length h2
    simpa using this
  have hmap : ns'.map (fun p => some p.2) = xs.map some := by
    have h3 : ns'.map (fun p => some p.2) = (ns'.map Prod.snd).map some := by
      rw [List.map_map]
      rfl
    rw [h3, h2]
    simp
  refine ⟨QueueTS.midQ ns' d' nid', QueueTS.midQ [] d' nid', h1', ?_⟩
  rw [← hlen, QueueTS.queuePopN_midQ ns' d' nid', hmap]

/-- Claim C4: the stack is LIFO for a single thread.  Pushing any value list
onto a fresh default-constructed stack and then popping length-plus-one times
returns exactly those values in reverse push order followed by the empty
result — in particular pushing 1, 2, 3 yields pops 3, then 2, then 1, then
empty. -/
theorem stack_lifo_order (xs : List Int) :
    ∃ t, StackTS.stackPopN (StackTS.stackPushAll (StackTS.freshStack 32) xs)
      (xs.length + 1) = some (xs.reverse.map some ++ [none], t) := by
  obtain ⟨ns', nid', h1, h2⟩ := StackTS.stackPushAll_midS xs [] 0
  have hfresh : StackTS.freshStack 32 = StackTS.midS [] 0 := rfl
  rw [hfresh, h1]
  have hlen : ns'.length = xs.length := by
    have := congrArg List.length h2
    simpa using this
  have hmap : ns'.map (fun p => some p.2) = xs.reverse.map some := by
    have h3 : ns'.map (fun p => some p.2) = (ns'.map Prod.snd).map some := by
      rw [List.map_map]
      rfl
    rw [h3, h2]
    simp
  rw [← hlen, StackTS.stackPopN_midS ns' nid', hmap]
  exact ⟨_, rfl⟩

/-- Claim C5: popping an empty container never blocks and returns the empty
result, leaving the container state unchanged.  Pop on a freshly constructed
queue (head equals tail, the dummy node, whose claim flag is set and cleared
again) returns the empty pointer and the fresh state; pop on any stack whose
head is null — given a claimable hazard slot and a clean table — returns the
empty pointer and the unchanged state. -/
theorem empty_pop_contract (α : Type) :
    (∀ hsz gsz : Nat, 0 < hsz →
      QueueTS.queuePop (QueueTS.freshQueue α hsz gsz) =
        some (none, [], QueueTS.freshQueue α hsz gsz)) ∧
    (∀ s : StackTS.StS, s.head = [] →
      (∃ i, StackTS.findFreeSlotS s.hazards = some i) → StackTS.CleanS s.hazards →
        StackTS.stackPop s = some (none, [], s)) := by
  constructor
  · intro hsz gsz hpos
    obtain ⟨n, rfl⟩ : ∃ n, hsz = n + 1 := ⟨hsz - 1, by omega⟩
    simp [QueueTS.queuePop, QueueTS.freshQueue, List.replicate_succ, QueueTS.findFreeSlot]
  · intro s hhead hex hclean
    obtain ⟨i, hfind⟩ := hex
    rw [StackTS.stackPop, hfind]
    simp only [StackTS.cleanS_set_found hclean hfind, hhead]
    rw [← hhead]

/-- Witness for C5: a fresh default queue and a fresh default stack both pop
empty without change. -/
theorem empty_pop_contract_witness :
    QueueTS.queuePop (QueueTS.freshQueue Nat 16 1024) =
      some (none, [], QueueTS.freshQueue Nat 16 1024) ∧
    StackTS.stackPop (StackTS.freshStack 32) =
      some (none, [], StackTS.freshStack 32) :=
  ⟨(empty_pop_contract Nat).1 16 1024 (by decide),
   (empty_pop_contract Nat).2 (StackTS.freshStack 32) rfl ⟨0, rfl⟩
     (fun h hm _ => by rcases List.eq_of_mem_replicate hm with rfl; rfl)⟩

/-- Counterexample to claim C7: the garbage list length can exceed
garbage_max_size at the moment a pop returns, because the triggered sweep
re-appends every still-protected node.  On a queue built with 3 hazard slots
and threshold 1, push 10 and 20, let a stalled reader protect the head, pop
(the popped node joins the garbage, the sweep re-appends it), let a second
stalled reader protect the new head, pop again: the pop returns with a
garbage list of length 2 over a threshold of 1. -/
theorem queue_garbage_bound_cex :
    ((QueueTS.queuePushAll (QueueTS.freshQueue Nat 3 1) [10, 20]).bind fun s1 =>
      (QueueTS.stallReader s1).bind fun s2 =>
        (QueueTS.queuePop s2).bind fun r1 =>
          (QueueTS.stallReader r1.2.2).bind fun s4 =>
            (QueueTS.queuePop s4).map fun r2 =>
              decide (r2.2.2.garbage.length ≤ r2.2.2.garbageMaxSize)) = some false := by
  decide

/-- Claim C7 as amended: at the moment a pop returns, the garbage list length
never exceeds garbage_max_size UNLESS every node remaining in the garbage
list is still hazard-protected — whenever the count reaches the threshold,
pop triggers collect_garbage, which drains the whole list, deleting each
unprotected node and re-appending each still-protected one, so the list it
leaves consists exclusively of protected nodes.  Hypotheses: the pop
completes, the garbage counter equals the garbage list length (true of every
reachable state, counter and list are updated together), that length is below
the size_t wrap bound, the hazard table is clean, and the state already
satisfied the stated bound-or-protected disjunction (for the path that pops
nothing and returns the state unchanged). -/
theorem queue_garbage_bound_amended {α : Type} (s : QueueTS.St α)
    (r : Option α × List Nat × QueueTS.St α)
    (hpop : QueueTS.queuePop s = some r)
    (hacc : s.garbageSize = s.garbage.length)
    (hlen : s.garbage.length + 1 < 2 ^ 64)
    (hclean : QueueTS.CleanQ s.hazards)
    (hinv : s.garbage.length ≤ s.garbageMaxSize ∨
      ∀ a ∈ s.garbage, QueueTS.isHazardous s.hazards a = true) :
    r.2.2.garbage.length ≤ r.2.2.garbageMaxSize ∨
      ∀ a ∈ r.2.2.garbage, QueueTS.isHazardous r.2.2.hazards a = true := by
  rw [QueueTS.queuePop] at hpop
  cases hf : QueueTS.findFreeSlot s.hazards with
  | none =>
    simp only [hf] at hpop
    exact Option.noConfusion hpop
  | some i =>
    simp only [hf] at hpop
    have hset : s.hazards.set i ⟨false, none⟩ = s.hazards :=
      QueueTS.cleanQ_set_found hclean hf
    rw [hset] at hpop
    cases hc : s.chain with
    | nil =>
      simp only [hc] at hpop
      exact Option.noConfusion hpop
    | cons hd rest =>
      simp only [hc] at hpop
      cases htk : hd.taken with
      | true =>
        simp only [htk, eq_self_iff_true, if_true] at hpop
        exact Option.noConfusion hpop
      | false =>
        simp only [htk, Bool.false_eq_true, if_false] at hpop
        cases rest with
        | nil =>
          injection hpop with h2
          subst h2
          exact hinv
        | cons c t =>
          simp only [] at hpop
          have hinc : QueueTS.inc64 s.garbageSize = s.garbage.length + 1 := by
            rw [hacc, QueueTS.inc64, Nat.mod_eq_of_lt hlen]
          cases hhz : QueueTS.isHazardous s.hazards hd.id with
          | true =>
            simp only [hhz, eq_self_iff_true, if_true] at hpop
            by_cases hfull : s.garbageMaxSize ≤ QueueTS.inc64 s.garbageSize
            · rw [if_pos hfull] at hpop
              injection hpop with h2
              subst h2
              exact Or.inr (fun a ha => QueueTS.collectGarbage_garbage_haz _ _ _ a ha)
            · rw [if_neg hfull] at hpop
              injection hpop with h2
              subst h2
              exact Or.inl (Nat.le_of_lt (Nat.lt_of_not_le (hinc ▸ hfull)))
          | false =>
            simp only [hhz, Bool.false_eq_true, if_false] at hpop
            by_cases hfull : s.garbageMaxSize ≤ s.garbageSize
            · rw [if_pos hfull] at hpop
              injection hpop with h2
              subst h2
              exact Or.inr (fun a ha => QueueTS.collectGarbage_garbage_haz _ _ _ a ha)
            · rw [if_neg hfull] at hpop
              injection hpop with h2
              subst h2
              exact Or.inl (Nat.le_of_lt (Nat.lt_of_not_le (hacc ▸ hfull)))

/-- Witness for the amended C7: a single-node queue pop at a clean state
satisfies the bound-or-protected disjunction. -/
theorem queue_garbage_bound_amended_witness :
    (QueueTS.midQ ([] : List (Nat × Nat)) 1 2).garbage.length ≤
        (QueueTS.midQ ([] : List (Nat × Nat)) 1 2).garbageMaxSize ∨
      ∀ a ∈ (QueueTS.midQ ([] : List (Nat × Nat)) 1 2).garbage,
        QueueTS.isHazardous (QueueTS.midQ ([] : List (Nat × Nat)) 1 2).hazards a = true :=
  queue_garbage_bound_amended (QueueTS.midQ [(0, 7)] 1 2)
    (some 7, [0], QueueTS.midQ [] 1 2) (by decide) rfl (by decide)
    (fun h hm _ => by rcases List.eq_of_mem_replicate hm with rfl; rfl)
    (Or.inl (by decide))

/-- Counterexample to claim C8: in the stack's move assignment the source's
live-list head pointer is NOT diverted away from the destination's head — it
is stored into the destination's head AND, by the bug, also into the
destination's garbage.  At a concrete input (destination uninitialised,
source head at address 5, source garbage at address 9) the assignment yields
destination head = 5, contradicting the claim's "rather than into the new
container's live head pointer". -/
theorem stack_move_assign_cex :
    StackMove.moveAssign ⟨none, some 77, none, 0⟩ ⟨some 5, some 9, some 7, 3⟩ =
      .ok (⟨some 5, some 5, some 7, 3⟩, ⟨none, none, none, 3⟩) ∧
    ¬ (∀ p : StackMove.SPtr × StackMove.SPtr,
        StackMove.moveAssign ⟨none, some 77, none, 0⟩ ⟨some 5, some 9, some 7, 3⟩ =
          .ok p → p.1.head ≠ some 5) := by
  refine ⟨rfl, fun hcl => ?_⟩
  exact hcl (⟨some 5, some 5, some 7, 3⟩, ⟨none, none, none, 3⟩) rfl rfl

/-- Claim C8 as amended: in a non-throwing move assignment the moved-from
container's live-list head pointer is assigned into the destination's garbage
pointer IN ADDITION TO the destination's live head pointer; the destination's
garbage therefore holds the source's former live list, and the source's
former garbage list is not transferred to the destination (nor left in the
source). -/
theorem stack_move_assign_amended (self other : StackMove.SPtr)
    (h0 : self.hazardMaxSize = 0) :
    ∃ d o, StackMove.moveAssign self other = .ok (d, o) ∧
      d.head = other.head ∧ d.garbage = other.head ∧
      o.head = none ∧ o.garbage = none ∧
      (other.garbage ≠ other.head → other.garbage ≠ none →
        d.head ≠ other.garbage ∧ d.garbage ≠ other.garbage ∧
          o.head ≠ other.garbage ∧ o.garbage ≠ other.garbage) := by
  rw [StackMove.moveAssign, if_neg (by omega)]
  refine ⟨_, _, rfl, rfl, rfl, rfl, rfl, fun hgh hgn => ?_⟩
  exact ⟨fun h => hgh h.symm, fun h => hgh h.symm,
    fun h => hgn h.symm, fun h => hgn h.symm⟩

/-- Witness for the amended C8: a concrete move assignment into an
uninitialised destination. -/
theorem stack_move_assign_amended_witness :
    ∃ d o, StackMove.moveAssign ⟨none, some 77, none, 0⟩ ⟨some 5, some 9, some 7, 3⟩ =
      .ok (d, o) ∧
      d.head = (⟨some 5, some 9, some 7, 3⟩ : StackMove.SPtr).head ∧
      d.garbage = (⟨some 5, some 9, some 7, 3⟩ : StackMove.SPtr).head ∧
      o.head = none ∧ o.garbage = none ∧
      ((⟨some 5, some 9, some 7, 3⟩ : StackMove.SPtr).garbage ≠
          (⟨some 5, some 9, some 7, 3⟩ : StackMove.SPtr).head →
        (⟨some 5, some 9, some 7, 3⟩ : StackMove.SPtr).garbage ≠ none →
        d.head ≠ (⟨some 5, some 9, some 7, 3⟩ : StackMove.SPtr).garbage ∧
          d.garbage ≠ (⟨some 5, some 9, some 7, 3⟩ : StackMove.SPtr).garbage ∧
          o.head ≠ (⟨some 5, some 9, some 7, 3⟩ : StackMove.SPtr).garbage ∧
          o.garbage ≠ (⟨some 5, some 9, some 7, 3⟩ : StackMove.SPtr).garbage) :=
  stack_move_assign_amended ⟨none, some 77, none, 0⟩ ⟨some 5, some 9, some 7, 3⟩ rfl

/-- Claim C9: move-assigning into an already-initialised stack (hazard-table
capacity greater than zero) raises the untyped error before modifying either
container: the operation returns the error value and produces no mutated
states, so both containers are left unchanged. -/
theorem stack_move_assign_guard (self other : StackMove.SPtr)
    (h : 0 < self.hazardMaxSize) :
    StackMove.moveAssign self other = .error "Can not assign to an intialized stack" := by
  rw [StackMove.moveAssign, if_pos h]

/-- Witness for C9: assigning into a default-constructed stack (capacity 32)
raises. -/
theorem stack_move_assign_guard_witness :
    StackMove.moveAssign ⟨none, none, some 4, 32⟩ ⟨some 5, some 9, some 7, 3⟩ =
      .error "Can not assign to an intialized stack" :=
  stack_move_assign_guard ⟨none, none, some 4, 32⟩ ⟨some 5, some 9, some 7, 3⟩ (by decide)

/-- Claim C10: the stack's move constructor stores the source's live-list
head pointer into BOTH the new container's head and its garbage pointer,
while the source's former garbage list — though exchanged out of the source —
is stored nowhere: afterwards the same chain is reachable from the
destination's head and garbage, and the source's former garbage pointer
appears in no pointer field of either container. -/
theorem stack_move_ctor_aliasing (other : StackMove.SPtr)
    (hgh : other.garbage ≠ other.head) (hgn : other.garbage ≠ none) :
    (StackMove.moveCtor other).1.head = other.head ∧
    (StackMove.moveCtor other).1.garbage = other.head ∧
    (StackMove.moveCtor other).2.head = none ∧
    (StackMove.moveCtor other).2.garbage = none ∧
    (StackMove.moveCtor other).1.head ≠ other.garbage ∧
    (StackMove.moveCtor other).1.garbage ≠ other.garbage ∧
    (StackMove.moveCtor other).2.head ≠ other.garbage ∧
    (StackMove.moveCtor other).2.garbage ≠ other.garbage :=
  ⟨rfl, rfl, rfl, rfl, fun h => hgh h.symm, fun h => hgh h.symm,
    fun h => hgn h.symm, fun h => hgn h.symm⟩

/-- Witness for C10: move-constructing from a stack with distinct live and
garbage chains. -/
theorem stack_move_ctor_aliasing_witness :
    (StackMove.moveCtor ⟨some 5, some 9, some 7, 3⟩).1.head =
        (⟨some 5, some 9, some 7, 3⟩ : StackMove.SPtr).head ∧
      (StackMove.moveCtor ⟨some 5, some 9, some 7, 3⟩).1.garbage =
        (⟨some 5, some 9, some 7, 3⟩ : StackMove.SPtr).head ∧
      (StackMove.moveCtor ⟨some 5, some 9, some 7, 3⟩).2.head = none ∧
      (StackMove.moveCtor ⟨some 5, some 9, some 7, 3⟩).2.garbage = none ∧
      (StackMove.moveCtor ⟨some 5, some 9, some 7, 3⟩).1.head ≠
        (⟨some 5, some 9, some 7, 3⟩ : StackMove.SPtr).garbage ∧
      (StackMove.moveCtor ⟨some 5, some 9, some 7, 3⟩).1.garbage ≠
        (⟨some 5, some 9, some 7, 3⟩ : StackMove.SPtr).garbage ∧
      (StackMove.moveCtor ⟨some 5, some 9, some 7, 3⟩).2.head ≠
        (⟨some 5, some 9, some 7, 3⟩ : StackMove.SPtr).garbage ∧
      (StackMove.moveCtor ⟨some 5, some 9, some 7, 3⟩).2.garbage ≠
        (⟨some 5, some 9, some 7, 3⟩ : StackMove.SPtr).garbage :=
  stack_move_ctor_aliasing ⟨some 5, some 9, some 7, 3⟩ (by decide) (by decide)
